import Mathlib

/-!
kubevirt-csi-driver: the infra-cluster client (`pkg/kubevirt/client.go`)

A shallow embedding of the volume-ownership gate and of the convergence polling of the
infra-cluster client, followed by the properties established about them.

Conventions of the embedding

* A Go `map[string]string` is a list of key/value pairs read with `List.lookup`; a Go map has
  no duplicate keys, and the `nil` map is the empty list.  Reading an absent key yields the
  zero value `""`, as in Go.
* A Go `string` is a Lean `String`; `strings.HasPrefix` compares the leading characters.
* A Go result pair `(*T, error)` is a pair of options, `none` standing for `nil`.
* The three downstream clients are not part of the repository.  The data-import client is
  an arbitrary deterministic transition system over a state type `σ`; every operation of the
  facade returns its result, the list of downstream calls it issued and the resulting state.
* Time is a logical clock counted in nanoseconds from the start of a call.
-/

namespace kubevirt

/-! ## Data model -/

/-- Go `map[string]string`. -/
abbrev LabelMap := List (String × String)

/-- Go map indexing `m[k]`: the stored value, or the zero value `""` when `k` is absent. -/
def index (m : LabelMap) (k : String) : String :=
  match m.lookup k with
  | some v => v
  | none => ""

/-- Go `strings.HasPrefix(s, prefix)`:
`len(s) >= len(prefix) && s[0:len(prefix)] == prefix`. -/
def HasPrefix (s pre : String) : Bool :=
  decide (pre.data.length ≤ s.data.length) && (s.data.take pre.data.length == pre.data)

/-- Errors seen by the facade.  `ErrInvalidVolume` is the package-level sentinel
`goerrors.New("invalid volume name")`; `NotFound` stands for the downstream errors that
`errors.IsNotFound` accepts, `ErrWaitTimeout` for the poller's timeout error, and `Other`
for every other downstream error. -/
inductive Error where
  | ErrInvalidVolume
  | NotFound (message : String)
  | ErrWaitTimeout
  | Other (message : String)
  deriving DecidableEq, Repr

/-- The apimachinery test `errors.IsNotFound(err)`; it is false on `nil`. -/
def IsNotFound : Option Error → Bool
  | some (Error.NotFound _) => true
  | _ => false

/-- The part of `cdiv1.DataVolume` the client reads: the object metadata. -/
structure DataVolume where
  Name : String
  Namespace : String
  Labels : LabelMap
  deriving DecidableEq, Repr

/-- The function `containsLabels(a, b)`: range over `b`, return false at the first key whose
value in `a` differs. -/
def containsLabels (a : LabelMap) : LabelMap → Bool
  | [] => true
  | (k, v) :: rest => if index a k != v then false else containsLabels a rest

/-- Specification side of `containsLabels`: every key of `required` is present in
`candidate` with an equal value. -/
def labelsSuperset (candidate required : LabelMap) : Bool :=
  required.all (fun kv => candidate.lookup kv.1 == some kv.2)

/-! ## The data-import API and the facade -/

/-- A call issued to the downstream data-import client. -/
inductive Call where
  | Get (ns name : String)
  | Create (ns : String) (dataVolume : DataVolume)
  | Delete (ns name : String)
  deriving DecidableEq, Repr

/-- The downstream data-import client `cdiClient.CdiV1beta1().DataVolumes(ns)`: each call
returns its Go result together with the next state of the remote side. -/
structure CdiClient (σ : Type) where
  Get : σ → String → String → (Option DataVolume × Option Error) × σ
  Create : σ → String → DataVolume → (Option DataVolume × Option Error) × σ
  Delete : σ → String → String → Option Error × σ

/-- The part of `kubevirtv1.VolumeStatus` the client reads. -/
structure VolumeStatus where
  Name : String
  Phase : String
  deriving DecidableEq, Repr

/-- The phase constant `kubevirtv1.VolumeReady`. -/
def VolumeReady : String := "Ready"

/-- The part of `kubevirtv1.VirtualMachineInstanceStatus` the client reads. -/
structure VirtualMachineInstanceStatus where
  VolumeStatus : List VolumeStatus
  deriving DecidableEq, Repr

/-- The part of `kubevirtv1.VirtualMachineInstance` the client reads. -/
structure VirtualMachineInstance where
  Status : VirtualMachineInstanceStatus
  deriving DecidableEq, Repr

/-- The downstream virtualization client `virtClient.VirtualMachineInstance(ns)`: the record
a `Get` issued at elapsed time `now` observes, or the error it fails with. -/
structure VirtClient where
  Get : Nat → String → String → Except Error VirtualMachineInstance

/-- The struct `client`: three downstream handles and the ownership policy. -/
structure client (κ σ : Type) where
  kubernetesClient : κ
  virtClient : VirtClient
  cdiClient : CdiClient σ
  infraLabelMap : LabelMap
  volumePrefix : String

/-- What one facade operation did: the value it returned, the downstream data-import calls it
issued in order, and the state of the remote side afterwards. -/
structure Outcome (α σ : Type) where
  value : α
  calls : List Call
  remote : σ
  deriving DecidableEq, Repr

/-- The constructors of the three downstream clients, as `NewClient` calls them. -/
structure Constructors (ρ κ σ : Type) where
  kubernetesNewForConfig : ρ → Except Error κ
  GetKubevirtClientFromRESTConfig : ρ → Except Error VirtClient
  cdiNewForConfig : ρ → Except Error (CdiClient σ)

/-- The function `NewClient(config, infraClusterLabelMap, prefix)`; its third parameter is
called `pfx` here.  The volume prefix is `fmt.Sprintf("%s-", prefix)`. -/
def NewClient {ρ κ σ : Type} (lib : Constructors ρ κ σ) (config : ρ)
    (infraClusterLabelMap : LabelMap) (pfx : String) : Except Error (client κ σ) :=
  match lib.kubernetesNewForConfig config with
  | .error err => .error err
  | .ok clientset =>
    match lib.GetKubevirtClientFromRESTConfig config with
    | .error err => .error err
    | .ok kubevirtClient =>
      match lib.cdiNewForConfig config with
      | .error err => .error err
      | .ok cdiClient =>
        .ok { kubernetesClient := clientset
              virtClient := kubevirtClient
              cdiClient := cdiClient
              infraLabelMap := infraClusterLabelMap
              volumePrefix := pfx ++ "-" }

/-- The method `GetVirtualMachine(namespace, name)`, issued at elapsed time `now`. -/
def GetVirtualMachine {κ σ : Type} (c : client κ σ) (now : Nat) (ns name : String) :
    Except Error VirtualMachineInstance :=
  c.virtClient.Get now ns name

/-- The method `GetDataVolume(namespace, name)`. -/
def GetDataVolume {κ σ : Type} (c : client κ σ) (ns name : String) (s : σ) :
    Outcome (Option DataVolume × Option Error) σ :=
  let r := c.cdiClient.Get s ns name
  match r.1 with
  | (_, some err) => ⟨(none, some err), [Call.Get ns name], r.2⟩
  | (some dv, none) =>
    if !containsLabels dv.Labels c.infraLabelMap || !HasPrefix dv.Name c.volumePrefix then
      ⟨(none, some Error.ErrInvalidVolume), [Call.Get ns name], r.2⟩
    else
      ⟨(some dv, none), [Call.Get ns name], r.2⟩
  | (none, none) => ⟨(none, none), [Call.Get ns name], r.2⟩

/-- The method `CreateDataVolume(namespace, dataVolume)`. -/
def CreateDataVolume {κ σ : Type} (c : client κ σ) (ns : String) (dataVolume : DataVolume)
    (s : σ) : Outcome (Option DataVolume × Option Error) σ :=
  if !HasPrefix dataVolume.Name c.volumePrefix then
    ⟨(none, some Error.ErrInvalidVolume), [], s⟩
  else
    let r := c.cdiClient.Create s ns dataVolume
    ⟨r.1, [Call.Create ns dataVolume], r.2⟩

/-- The method `DeleteDataVolume(namespace, name)`. -/
def DeleteDataVolume {κ σ : Type} (c : client κ σ) (ns name : String) (s : σ) :
    Outcome (Option Error) σ :=
  let g := GetDataVolume c ns name s
  if IsNotFound g.value.2 then
    ⟨none, g.calls, g.remote⟩
  else
    match g.value with
    | (_, some err) => ⟨some err, g.calls, g.remote⟩
    | (some dv, none) =>
      let d := c.cdiClient.Delete g.remote ns dv.Name
      ⟨d.1, g.calls ++ [Call.Delete ns dv.Name], d.2⟩
    | (none, none) => ⟨none, g.calls, g.remote⟩

/-- Specification side of the ownership gate: the name starts with the configured prefix and
the labels are a superset of the required labels. -/
def ownershipPredicate {κ σ : Type} (c : client κ σ) (dv : DataVolume) : Bool :=
  HasPrefix dv.Name c.volumePrefix && labelsSuperset dv.Labels c.infraLabelMap

/-! ## Convergence polling -/

/-- The loop over `vmi.Status.VolumeStatus` in the condition of `EnsureVolumeAvailable`. -/
def availableScan (volumeName : String) : List VolumeStatus → Bool × Option Error
  | [] => (false, none)
  | volume :: rest =>
    if volume.Name == volumeName && volume.Phase == VolumeReady then (true, none)
    else availableScan volumeName rest

/-- The condition function `EnsureVolumeAvailable` hands to the poller: one sample taken at
elapsed time `now`. -/
def EnsureVolumeAvailableCondition {κ σ : Type} (c : client κ σ)
    (ns vmName volumeName : String) (now : Nat) : Bool × Option Error :=
  match GetVirtualMachine c now ns vmName with
  | .error err => (false, some err)
  | .ok vmi => availableScan volumeName vmi.Status.VolumeStatus

/-- The loop over `vmi.Status.VolumeStatus` in the condition of `EnsureVolumeRemoved`. -/
def removedScan (volumeName : String) : List VolumeStatus → Bool × Option Error
  | [] => (true, none)
  | volume :: rest =>
    if volume.Name == volumeName then (false, none)
    else removedScan volumeName rest

/-- The condition function `EnsureVolumeRemoved` hands to the poller: one sample taken at
elapsed time `now`. -/
def EnsureVolumeRemovedCondition {κ σ : Type} (c : client κ σ)
    (ns vmName volumeName : String) (now : Nat) : Bool × Option Error :=
  match GetVirtualMachine c now ns vmName with
  | .error err => (false, some err)
  | .ok vmi => removedScan volumeName vmi.Status.VolumeStatus

/-- The constant `time.Second`, in nanoseconds. -/
def Second : Nat := 1000000000

/-- What a poll did: `returned` is the error it returned (`some none` for `nil`), or `none`
when the fuel ran out while it was still polling; `samples` lists the elapsed times at which
the condition was evaluated, in order. -/
structure PollOutcome where
  returned : Option (Option Error)
  samples : List Nat
  deriving DecidableEq, Repr

/-- The ticking phase of the apimachinery poller on the logical clock: a tick every
`interval`; once the deadline `timeout` is reached (a zero timeout never expires) the
condition is checked one last time and the poll ends with `ErrWaitTimeout`.  Evaluating the
condition takes no logical time, and a tick that falls on the deadline is lost to it. -/
def pollTicks (interval : Nat) (timeout : Int) (condition : Nat → Bool × Option Error) :
    Nat → Nat → PollOutcome
  | 0, _ => ⟨none, []⟩
  | fuel + 1, now =>
    if timeout ≠ 0 ∧ timeout ≤ ((now + interval : Nat) : Int) then
      let t := max now timeout.toNat
      match condition t with
      | (_, some err) => ⟨some (some err), [t]⟩
      | (true, none) => ⟨some none, [t]⟩
      | (false, none) => ⟨some (some Error.ErrWaitTimeout), [t]⟩
    else
      let t := now + interval
      match condition t with
      | (_, some err) => ⟨some (some err), [t]⟩
      | (true, none) => ⟨some none, [t]⟩
      | (false, none) =>
        let r := pollTicks interval timeout condition fuel t
        ⟨r.returned, t :: r.samples⟩

/-- The helper `wait.PollImmediate(interval, timeout, condition)` on the logical clock.  It
belongs to the apimachinery dependency, not to the repository, and follows its documented
contract: the condition is always checked once before waiting for the interval, then on every
tick. -/
def PollImmediate (interval : Nat) (timeout : Int) (condition : Nat → Bool × Option Error)
    (fuel : Nat) : PollOutcome :=
  match condition 0 with
  | (_, some err) => ⟨some (some err), [0]⟩
  | (true, none) => ⟨some none, [0]⟩
  | (false, none) =>
    let r := pollTicks interval timeout condition fuel 0
    ⟨r.returned, 0 :: r.samples⟩

/-- The method `EnsureVolumeAvailable(namespace, vmName, volumeName, timeout)`. -/
def EnsureVolumeAvailable {κ σ : Type} (c : client κ σ) (ns vmName volumeName : String)
    (timeout : Int) (fuel : Nat) : PollOutcome :=
  PollImmediate Second timeout (EnsureVolumeAvailableCondition c ns vmName volumeName) fuel

/-- The method `EnsureVolumeRemoved(namespace, vmName, volumeName, timeout)`. -/
def EnsureVolumeRemoved {κ σ : Type} (c : client κ σ) (ns vmName volumeName : String)
    (timeout : Int) (fuel : Nat) : PollOutcome :=
  PollImmediate Second timeout (EnsureVolumeRemovedCondition c ns vmName volumeName) fuel

/-! ## A reference remote side

An in-memory object store keyed by namespace and name, in the manner of the fake clientset
the unit tests install, and the fixtures of `client_test.go`. -/

/-- The objects held by the in-memory data-import store. -/
abbrev Store := List DataVolume

/-- The object stored under a namespace and name, if any. -/
def Store.find (s : Store) (ns name : String) : Option DataVolume :=
  s.find? (fun dv => dv.Namespace == ns && dv.Name == name)

/-- The in-memory data-import client. -/
def memoryCdi : CdiClient Store where
  Get s ns name :=
    match s.find ns name with
    | some dv => ((some dv, none), s)
    | none => ((none, some (Error.NotFound name)), s)
  Create s ns dataVolume :=
    match s.find ns dataVolume.Name with
    | some _ => ((none, some (Error.Other "AlreadyExists")), s)
    | none => ((some { dataVolume with Namespace := ns }, none),
               s ++ [{ dataVolume with Namespace := ns }])
  Delete s ns name :=
    match s.find ns name with
    | some _ => (none, s.filter (fun dv => !(dv.Namespace == ns && dv.Name == name)))
    | none => (some (Error.NotFound name), s)

/-- A virtualization client that observes the same record at every time. -/
def constantVirt (vmi : VirtualMachineInstance) : VirtClient where
  Get _ _ _ := .ok vmi

/-- The fixture `createDataVolume(name, labels)` of the tests. -/
def createDataVolume (name : String) (labels : LabelMap) : DataVolume :=
  { Name := name, Namespace := "test-namespace", Labels := labels }

/-- A client over the in-memory store with required labels `M` and volume prefix `P`; `vmi`
is the record its virtualization client observes. -/
def memoryClient (M : LabelMap) (P : String) (vmi : VirtualMachineInstance) :
    client Unit Store where
  kubernetesClient := ()
  virtClient := constantVirt vmi
  cdiClient := memoryCdi
  infraLabelMap := M
  volumePrefix := P

/-- The client `NewFakeClient()` of the tests: required labels `test=test`, prefix `pvc-`. -/
def testClient (vmi : VirtualMachineInstance) : client Unit Store :=
  memoryClient [("test", "test")] "pvc-" vmi

/-- Downstream constructors that always succeed, yielding the in-memory clients. -/
def memoryConstructors (vmi : VirtualMachineInstance) : Constructors Unit Unit Store where
  kubernetesNewForConfig _ := .ok ()
  GetKubevirtClientFromRESTConfig _ := .ok (constantVirt vmi)
  cdiNewForConfig _ := .ok memoryCdi

/-- The three objects the tests load into the fake data-import client. -/
def testStore : Store :=
  [createDataVolume "pvc-valid-data-volume" [("test", "test")],
   createDataVolume "nolabel-data-volume" [],
   createDataVolume "test-volume" [("test", "test")]]

/-! ## Auxiliary facts -/

theorem HasPrefix_iff (s pre : String) :
    HasPrefix s pre = true ↔ ∃ rest : String, s = pre ++ rest := by
  unfold HasPrefix
  constructor
  · intro h
    simp only [Bool.and_eq_true, decide_eq_true_eq, beq_iff_eq] at h
    refine ⟨⟨s.data.drop pre.data.length⟩, ?_⟩
    apply String.ext
    rw [String.data_append]
    conv_lhs => rw [← List.take_append_drop pre.data.length s.data]
    rw [h.2]
  · rintro ⟨rest, rfl⟩
    simp

theorem index_of_lookup {m : LabelMap} {k v : String} (h : m.lookup k = some v) :
    index m k = v := by
  simp [index, h]

theorem containsLabels_iff (a b : LabelMap) :
    containsLabels a b = true ↔ ∀ kv ∈ b, index a kv.1 = kv.2 := by
  induction b with
  | nil => simp [containsLabels]
  | cons kv rest ih =>
    obtain ⟨k, v⟩ := kv
    by_cases h : index a k = v
    · simp [containsLabels, h, ih]
    · simp [containsLabels, h]

theorem labelsSuperset_iff (a b : LabelMap) :
    labelsSuperset a b = true ↔ ∀ kv ∈ b, a.lookup kv.1 = some kv.2 := by
  simp [labelsSuperset, List.all_eq_true]

theorem containsLabels_of_labelsSuperset {a b : LabelMap} (h : labelsSuperset a b = true) :
    containsLabels a b = true := by
  rw [containsLabels_iff]
  rw [labelsSuperset_iff] at h
  intro kv hkv
  exact index_of_lookup (h kv hkv)

/-- Away from empty required values the loop of `containsLabels` decides the superset
relation. -/
theorem containsLabels_eq_labelsSuperset (a b : LabelMap) (hb : ∀ kv ∈ b, kv.2 ≠ "") :
    containsLabels a b = labelsSuperset a b := by
  rw [Bool.eq_iff_iff, containsLabels_iff, labelsSuperset_iff]
  constructor
  · intro h kv hkv
    have h1 := h kv hkv
    have h2 := hb kv hkv
    unfold index at h1
    cases hl : a.lookup kv.1 with
    | none => rw [hl] at h1; exact absurd h1.symm h2
    | some w => rw [hl] at h1; simp only at h1; rw [h1]
  · intro h kv hkv
    exact index_of_lookup (h kv hkv)

theorem GetDataVolume_fetched {κ σ : Type} (c : client κ σ) (ns name : String) (s s1 : σ)
    (dv : DataVolume) (hget : c.cdiClient.Get s ns name = ((some dv, none), s1)) :
    GetDataVolume c ns name s =
      ⟨if containsLabels dv.Labels c.infraLabelMap && HasPrefix dv.Name c.volumePrefix
        then (some dv, none) else (none, some Error.ErrInvalidVolume),
       [Call.Get ns name], s1⟩ := by
  unfold GetDataVolume
  simp only [hget]
  cases containsLabels dv.Labels c.infraLabelMap <;>
    cases HasPrefix dv.Name c.volumePrefix <;> simp

theorem GetDataVolume_failed {κ σ : Type} (c : client κ σ) (ns name : String) (s : σ)
    (err : Error) (hget : (c.cdiClient.Get s ns name).1.2 = some err) :
    GetDataVolume c ns name s =
      ⟨(none, some err), [Call.Get ns name], (c.cdiClient.Get s ns name).2⟩ := by
  unfold GetDataVolume
  rcases hr : c.cdiClient.Get s ns name with ⟨⟨dv, e⟩, s1⟩
  rw [hr] at hget
  simp only at hget
  subst hget
  cases dv <;> rfl

theorem Store.find_some {s : Store} {ns name : String} {dv : DataVolume}
    (h : s.find ns name = some dv) : dv.Namespace = ns ∧ dv.Name = name := by
  have := List.find?_some h
  simpa using this

theorem Store.find_filter (s : Store) (ns name : String) :
    Store.find (s.filter (fun dv => !(dv.Namespace == ns && dv.Name == name))) ns name
      = none := by
  unfold Store.find
  rw [List.find?_eq_none]
  intro x hx hp
  have := (List.mem_filter.mp hx).2
  simp [hp] at this

theorem append_hyphen_cancel {p rest r : String} (h : p ++ rest = (p ++ "-") ++ r) :
    rest = "-" ++ r := by
  have h1 := congrArg String.data h
  simp only [String.data_append, List.append_assoc] at h1
  have h2 := List.append_cancel_left h1
  apply String.ext
  simpa using h2

theorem availableScan_true_iff (volumeName : String) (l : List VolumeStatus) :
    availableScan volumeName l = (true, none) ↔
      ∃ volume ∈ l, volume.Name = volumeName ∧ volume.Phase = VolumeReady := by
  induction l with
  | nil => simp [availableScan]
  | cons v rest ih =>
    by_cases h : v.Name = volumeName ∧ v.Phase = VolumeReady
    · simp [availableScan, h]
    · have h1 : (v.Name == volumeName && v.Phase == VolumeReady) = false := by
        simpa using h
      simp only [availableScan, h1, Bool.false_eq_true, if_false, ih, List.mem_cons,
        exists_eq_or_imp]
      tauto

theorem availableScan_cases (volumeName : String) (l : List VolumeStatus) :
    availableScan volumeName l = (true, none) ∨ availableScan volumeName l = (false, none) := by
  induction l with
  | nil => simp [availableScan]
  | cons v rest ih =>
    unfold availableScan
    split
    · exact Or.inl rfl
    · exact ih

theorem removedScan_true_iff (volumeName : String) (l : List VolumeStatus) :
    removedScan volumeName l = (true, none) ↔ ∀ volume ∈ l, volume.Name ≠ volumeName := by
  induction l with
  | nil => simp [removedScan]
  | cons v rest ih =>
    by_cases h : v.Name = volumeName
    · simp [removedScan, h]
    · simp [removedScan, h, ih]

theorem removedScan_cases (volumeName : String) (l : List VolumeStatus) :
    removedScan volumeName l = (true, none) ∨ removedScan volumeName l = (false, none) := by
  induction l with
  | nil => simp [removedScan]
  | cons v rest ih =>
    unfold removedScan
    split
    · exact Or.inr rfl
    · exact ih

theorem PollImmediate_first_sample (interval : Nat) (timeout : Int)
    (condition : Nat → Bool × Option Error) (fuel : Nat) :
    (PollImmediate interval timeout condition fuel).samples.head? = some 0 := by
  unfold PollImmediate
  split <;> rfl

/-- With a positive timeout the ticking phase returns once the fuel covers the ticks up to
the deadline. -/
theorem pollTicks_returns (interval : Nat) (timeout : Int)
    (condition : Nat → Bool × Option Error) (ht : 0 < timeout) :
    ∀ (fuel now : Nat), 0 < fuel → timeout ≤ ((now + fuel * interval : Nat) : Int) →
      (pollTicks interval timeout condition fuel now).returned ≠ none := by
  intro fuel
  induction fuel with
  | zero => intro now h; exact absurd h (Nat.lt_irrefl 0)
  | succ n ih =>
    intro now _ hcover
    unfold pollTicks
    split
    · dsimp only
      split <;> simp
    · rename_i hnot
      dsimp only
      split
      · simp
      · simp
      · have hlt : ((now + interval : Nat) : Int) < timeout := by
          by_contra hge
          exact hnot ⟨ne_of_gt ht, not_lt.mp hge⟩
        have hn : 0 < n := by
          rcases Nat.eq_zero_or_pos n with h0 | hpos
          · subst h0
            simp only [zero_add, one_mul] at hcover
            omega
          · exact hpos
        have hcover2 : timeout ≤ ((now + interval + n * interval : Nat) : Int) := by
          have : now + (n + 1) * interval = now + interval + n * interval := by ring
          rw [this] at hcover
          exact hcover
        exact ih (now + interval) hn hcover2

/-- With a positive timeout `PollImmediate` returns once the fuel covers the ticks up to the
deadline. -/
theorem PollImmediate_returns (interval : Nat) (timeout : Int)
    (condition : Nat → Bool × Option Error) (ht : 0 < timeout)
    (fuel : Nat) (hf : 0 < fuel) (hcover : timeout ≤ ((fuel * interval : Nat) : Int)) :
    (PollImmediate interval timeout condition fuel).returned ≠ none := by
  unfold PollImmediate
  split
  · simp
  · simp
  · dsimp only
    exact pollTicks_returns interval timeout condition ht fuel 0 hf (by simpa using hcover)

/-- When no required label has an empty value, the check of `GetDataVolume` on a fetched
volume is the ownership predicate. -/
theorem GetDataVolume_gate_of_nonempty_values {κ σ : Type} (c : client κ σ) (ns name : String)
    (s s1 : σ) (dv : DataVolume) (hM : ∀ kv ∈ c.infraLabelMap, kv.2 ≠ "")
    (hget : c.cdiClient.Get s ns name = ((some dv, none), s1)) :
    GetDataVolume c ns name s =
      ⟨if ownershipPredicate c dv then (some dv, none) else (none, some Error.ErrInvalidVolume),
       [Call.Get ns name], s1⟩ := by
  rw [GetDataVolume_fetched c ns name s s1 dv hget,
    containsLabels_eq_labelsSuperset dv.Labels c.infraLabelMap hM]
  unfold ownershipPredicate
  rw [Bool.and_comm]

/-- A fetched volume whose name lacks the volume prefix is never returned. -/
theorem GetDataVolume_wrong_prefix {κ σ : Type} (c : client κ σ) (ns name : String)
    (s s1 : σ) (dv : DataVolume) (hp : HasPrefix dv.Name c.volumePrefix = false)
    (hget : c.cdiClient.Get s ns name = ((some dv, none), s1)) :
    GetDataVolume c ns name s =
      ⟨(none, some Error.ErrInvalidVolume), [Call.Get ns name], s1⟩ := by
  rw [GetDataVolume_fetched c ns name s s1 dv hget, hp]
  simp

/-- When `GetDataVolume` refuses a volume, `DeleteDataVolume` returns `ErrInvalidVolume` and
issues no delete call. -/
theorem DeleteDataVolume_refused {κ σ : Type} (c : client κ σ) (ns name : String) (s s1 : σ)
    (hget : GetDataVolume c ns name s
      = ⟨(none, some Error.ErrInvalidVolume), [Call.Get ns name], s1⟩) :
    DeleteDataVolume c ns name s = ⟨some Error.ErrInvalidVolume, [Call.Get ns name], s1⟩ := by
  unfold DeleteDataVolume
  simp [hget, IsNotFound]

/-! ## The ownership gate -/

/-- C6: `containsLabels` does not require a key of `required` to be present in `candidate`.
With the required label `k` mapped to the empty string and a candidate without labels, the
key `k` is absent from the candidate and the superset relation fails, yet the function
returns true. -/
theorem containsLabels_absent_key_empty_value :
    containsLabels [] [("k", "")] = true ∧
      List.lookup "k" ([] : LabelMap) = none ∧
      labelsSuperset [] [("k", "")] = false := by
  decide

/-- C1: `GetDataVolume` can return a volume whose ownership predicate is false.  The client
requires the label `k` with an empty value and the prefix `pvc-`; the stored volume `pvc-a`
has no labels, so the predicate is false, yet the volume is returned with no error. -/
theorem GetDataVolume_returns_unowned_volume :
    (GetDataVolume (memoryClient [("k", "")] "pvc-" ⟨⟨[]⟩⟩) "test-namespace" "pvc-a"
        [createDataVolume "pvc-a" []]).value
      = (some (createDataVolume "pvc-a" []), none) ∧
    ownershipPredicate (memoryClient [("k", "")] "pvc-" ⟨⟨[]⟩⟩) (createDataVolume "pvc-a" [])
      = false := by
  decide

/-- C2: a data volume whose name does not start with the client's volume prefix is refused
with `ErrInvalidVolume`, no downstream call is issued and the remote side is unchanged; a
data volume whose name starts with the prefix is passed to the downstream create call, whose
result is returned as is, whatever the labels of the volume. -/
theorem CreateDataVolume_prefix_gate {κ σ : Type} (c : client κ σ) (ns : String)
    (dataVolume : DataVolume) (s : σ) :
    ((¬ ∃ rest : String, dataVolume.Name = c.volumePrefix ++ rest) →
      CreateDataVolume c ns dataVolume s = ⟨(none, some Error.ErrInvalidVolume), [], s⟩) ∧
    ((∃ rest : String, dataVolume.Name = c.volumePrefix ++ rest) →
      CreateDataVolume c ns dataVolume s =
        ⟨(c.cdiClient.Create s ns dataVolume).1, [Call.Create ns dataVolume],
         (c.cdiClient.Create s ns dataVolume).2⟩) := by
  constructor
  · intro h
    have hp : HasPrefix dataVolume.Name c.volumePrefix = false := by
      rw [← Bool.not_eq_true, HasPrefix_iff]
      exact h
    simp [CreateDataVolume, hp]
  · intro h
    have hp : HasPrefix dataVolume.Name c.volumePrefix = true := (HasPrefix_iff _ _).mpr h
    simp [CreateDataVolume, hp]

/-- Witness of C2 on the fixtures of the tests: the name `test` is refused and the store is
untouched; the name `pvc-test2` is created, and so is a volume without any label. -/
theorem CreateDataVolume_prefix_gate_witness :
    CreateDataVolume (testClient ⟨⟨[]⟩⟩) "test-namespace"
        (createDataVolume "test" [("test", "test")]) testStore
      = ⟨(none, some Error.ErrInvalidVolume), [], testStore⟩ ∧
    CreateDataVolume (testClient ⟨⟨[]⟩⟩) "test-namespace"
        (createDataVolume "pvc-test2" []) testStore
      = ⟨(some (createDataVolume "pvc-test2" []), none),
         [Call.Create "test-namespace" (createDataVolume "pvc-test2" [])],
         testStore ++ [createDataVolume "pvc-test2" []]⟩ :=
  ⟨(CreateDataVolume_prefix_gate (testClient ⟨⟨[]⟩⟩) "test-namespace"
      (createDataVolume "test" [("test", "test")]) testStore).1
      (by rw [← HasPrefix_iff]; decide),
   ((CreateDataVolume_prefix_gate (testClient ⟨⟨[]⟩⟩) "test-namespace"
      (createDataVolume "pvc-test2" []) testStore).2 ⟨"test2", by decide⟩).trans (by decide)⟩

/-- C3: `DeleteDataVolume` can delete a volume that fails the ownership predicate.  The client
requires the label `k` with an empty value; the stored volume `pvc-a` lacks that label, yet
the delete call is issued, nil is returned and the volume is gone from the store. -/
theorem DeleteDataVolume_deletes_unowned_volume :
    ownershipPredicate (memoryClient [("k", "")] "pvc-" ⟨⟨[]⟩⟩) (createDataVolume "pvc-a" [])
      = false ∧
    DeleteDataVolume (memoryClient [("k", "")] "pvc-" ⟨⟨[]⟩⟩) "test-namespace" "pvc-a"
        [createDataVolume "pvc-a" []]
      = ⟨none, [Call.Get "test-namespace" "pvc-a", Call.Delete "test-namespace" "pvc-a"],
         []⟩ := by
  decide

/-- C4: when the downstream lookup reports not-found, for any namespace and any name,
`DeleteDataVolume` returns nil and the lookup is the only downstream call it issues: no
delete call is made. -/
theorem DeleteDataVolume_not_found {κ σ : Type} (c : client κ σ) (ns name : String) (s : σ)
    (h : IsNotFound (c.cdiClient.Get s ns name).1.2 = true) :
    DeleteDataVolume c ns name s =
      ⟨none, [Call.Get ns name], (c.cdiClient.Get s ns name).2⟩ := by
  obtain ⟨m, hm⟩ : ∃ m, (c.cdiClient.Get s ns name).1.2 = some (Error.NotFound m) := by
    revert h
    cases (c.cdiClient.Get s ns name).1.2 with
    | none => simp [IsNotFound]
    | some e => cases e <;> simp [IsNotFound]
  unfold DeleteDataVolume
  simp [GetDataVolume_failed c ns name s _ hm, IsNotFound]

/-- Witness of C4 on the fixtures of the tests: the name `notexist`, which does not carry the
prefix either, is not in the store; the delete returns nil and leaves the store as it was. -/
theorem DeleteDataVolume_not_found_witness :
    IsNotFound ((testClient ⟨⟨[]⟩⟩).cdiClient.Get testStore "test-namespace" "notexist").1.2
      = true ∧
    DeleteDataVolume (testClient ⟨⟨[]⟩⟩) "test-namespace" "notexist" testStore
      = ⟨none, [Call.Get "test-namespace" "notexist"], testStore⟩ :=
  ⟨by decide,
   (DeleteDataVolume_not_found (testClient ⟨⟨[]⟩⟩) "test-namespace" "notexist" testStore
      (by decide)).trans (by decide)⟩

theorem DeleteDataVolume_fetched_owned {κ σ : Type} (c : client κ σ) (ns name : String)
    (s s1 : σ) (dv : DataVolume) (hget : c.cdiClient.Get s ns name = ((some dv, none), s1))
    (hown : ownershipPredicate c dv = true) :
    DeleteDataVolume c ns name s =
      ⟨(c.cdiClient.Delete s1 ns dv.Name).1,
       [Call.Get ns name, Call.Delete ns dv.Name],
       (c.cdiClient.Delete s1 ns dv.Name).2⟩ := by
  unfold ownershipPredicate at hown
  rw [Bool.and_eq_true] at hown
  have hl := containsLabels_of_labelsSuperset hown.2
  unfold DeleteDataVolume
  simp [GetDataVolume_fetched c ns name s s1 dv hget, hl, hown.1, IsNotFound]

/-- C5: for a data volume the lookup returns and that satisfies the ownership predicate,
`DeleteDataVolume` issues, after the lookup, exactly one delete call, in the given namespace
and for the name carried by the volume the lookup returned; it returns the error of that call
as is and leaves the remote side in the state that call produced.  Over the in-memory store
the delete succeeds: nil is returned and the store no longer holds the volume. -/
theorem DeleteDataVolume_owned :
    (∀ {κ σ : Type} (c : client κ σ) (ns name : String) (s s1 : σ) (dv : DataVolume),
      c.cdiClient.Get s ns name = ((some dv, none), s1) →
      ownershipPredicate c dv = true →
      DeleteDataVolume c ns name s =
        ⟨(c.cdiClient.Delete s1 ns dv.Name).1,
         [Call.Get ns name, Call.Delete ns dv.Name],
         (c.cdiClient.Delete s1 ns dv.Name).2⟩) ∧
    (∀ (M : LabelMap) (P : String) (vmi : VirtualMachineInstance) (store : Store)
        (ns name : String) (dv : DataVolume),
      Store.find store ns name = some dv →
      ownershipPredicate (memoryClient M P vmi) dv = true →
      (DeleteDataVolume (memoryClient M P vmi) ns name store).value = none ∧
      (DeleteDataVolume (memoryClient M P vmi) ns name store).calls
        = [Call.Get ns name, Call.Delete ns name] ∧
      Store.find (DeleteDataVolume (memoryClient M P vmi) ns name store).remote ns name
        = none) := by
  refine ⟨fun c ns name s s1 dv hget hown =>
    DeleteDataVolume_fetched_owned c ns name s s1 dv hget hown, ?_⟩
  intro M P vmi store ns name dv hfind hown
  have hname := (Store.find_some hfind).2
  have hget : (memoryClient M P vmi).cdiClient.Get store ns name = ((some dv, none), store) := by
    simp [memoryClient, memoryCdi, hfind]
  rw [DeleteDataVolume_fetched_owned _ ns name store store dv hget hown, hname]
  simp only [memoryClient, memoryCdi, hfind]
  exact ⟨trivial, trivial, Store.find_filter store ns name⟩

/-- Witness of C5 on the fixtures of the tests: deleting `pvc-valid-data-volume` issues the
lookup and one delete, returns nil and removes the volume from the store. -/
theorem DeleteDataVolume_owned_witness :
    DeleteDataVolume (testClient ⟨⟨[]⟩⟩) "test-namespace" "pvc-valid-data-volume" testStore
      = ⟨none,
         [Call.Get "test-namespace" "pvc-valid-data-volume",
          Call.Delete "test-namespace" "pvc-valid-data-volume"],
         [createDataVolume "nolabel-data-volume" [],
          createDataVolume "test-volume" [("test", "test")]]⟩ ∧
    Store.find (DeleteDataVolume (testClient ⟨⟨[]⟩⟩) "test-namespace" "pvc-valid-data-volume"
        testStore).remote "test-namespace" "pvc-valid-data-volume" = none :=
  ⟨(DeleteDataVolume_owned.1 (testClient ⟨⟨[]⟩⟩) "test-namespace" "pvc-valid-data-volume"
      testStore testStore (createDataVolume "pvc-valid-data-volume" [("test", "test")])
      (by decide) (by decide)).trans (by decide),
   (DeleteDataVolume_owned.2 [("test", "test")] "pvc-" ⟨⟨[]⟩⟩ testStore "test-namespace"
      "pvc-valid-data-volume" (createDataVolume "pvc-valid-data-volume" [("test", "test")])
      (by decide) (by decide)).2.2⟩

/-! ## Convergence polling -/

/-- C7: when the fetch of the VM instance record succeeds, one sample of
`EnsureVolumeAvailable` reports done with no error exactly when the volume-status list of the
record has an entry with the target name and the phase `VolumeReady`; in every other case the
sample reports not done with no error. -/
theorem EnsureVolumeAvailable_sample {κ σ : Type} (c : client κ σ)
    (ns vmName volumeName : String) (now : Nat) (vmi : VirtualMachineInstance)
    (hfetch : GetVirtualMachine c now ns vmName = .ok vmi) :
    (EnsureVolumeAvailableCondition c ns vmName volumeName now = (true, none) ↔
      ∃ volume ∈ vmi.Status.VolumeStatus,
        volume.Name = volumeName ∧ volume.Phase = VolumeReady) ∧
    ((¬ ∃ volume ∈ vmi.Status.VolumeStatus,
        volume.Name = volumeName ∧ volume.Phase = VolumeReady) →
      EnsureVolumeAvailableCondition c ns vmName volumeName now = (false, none)) := by
  have hc : EnsureVolumeAvailableCondition c ns vmName volumeName now
      = availableScan volumeName vmi.Status.VolumeStatus := by
    simp [EnsureVolumeAvailableCondition, hfetch]
  rw [hc]
  refine ⟨availableScan_true_iff volumeName _, fun hno => ?_⟩
  rcases availableScan_cases volumeName vmi.Status.VolumeStatus with h | h
  · exact absurd ((availableScan_true_iff volumeName _).mp h) hno
  · exact h

/-- Witness of C7: with `v1` ready the sample converges; with `v1` pending next to a ready
`v2`, and with no entry for `v1`, it does not. -/
theorem EnsureVolumeAvailable_sample_witness :
    EnsureVolumeAvailableCondition
        (testClient ⟨⟨[⟨"v0", "Ready"⟩, ⟨"v1", "Ready"⟩]⟩⟩) "ns" "vm" "v1" 0 = (true, none) ∧
    EnsureVolumeAvailableCondition
        (testClient ⟨⟨[⟨"v1", "Pending"⟩, ⟨"v2", "Ready"⟩]⟩⟩) "ns" "vm" "v1" 0
      = (false, none) ∧
    EnsureVolumeAvailableCondition
        (testClient ⟨⟨[⟨"v2", "Ready"⟩]⟩⟩) "ns" "vm" "v1" 0 = (false, none) :=
  ⟨(EnsureVolumeAvailable_sample (testClient ⟨⟨[⟨"v0", "Ready"⟩, ⟨"v1", "Ready"⟩]⟩⟩)
      "ns" "vm" "v1" 0 ⟨⟨[⟨"v0", "Ready"⟩, ⟨"v1", "Ready"⟩]⟩⟩ rfl).1.mpr
      ⟨⟨"v1", "Ready"⟩, by decide, rfl, rfl⟩,
   (EnsureVolumeAvailable_sample (testClient ⟨⟨[⟨"v1", "Pending"⟩, ⟨"v2", "Ready"⟩]⟩⟩)
      "ns" "vm" "v1" 0 ⟨⟨[⟨"v1", "Pending"⟩, ⟨"v2", "Ready"⟩]⟩⟩ rfl).2 (by decide),
   (EnsureVolumeAvailable_sample (testClient ⟨⟨[⟨"v2", "Ready"⟩]⟩⟩)
      "ns" "vm" "v1" 0 ⟨⟨[⟨"v2", "Ready"⟩]⟩⟩ rfl).2 (by decide)⟩

/-- C8: when the fetch of the VM instance record succeeds, one sample of
`EnsureVolumeRemoved` reports done with no error exactly when no entry of the volume-status
list of the record has the target name; an entry with that name, whatever its phase, makes
the sample report not done with no error. -/
theorem EnsureVolumeRemoved_sample {κ σ : Type} (c : client κ σ)
    (ns vmName volumeName : String) (now : Nat) (vmi : VirtualMachineInstance)
    (hfetch : GetVirtualMachine c now ns vmName = .ok vmi) :
    (EnsureVolumeRemovedCondition c ns vmName volumeName now = (true, none) ↔
      ∀ volume ∈ vmi.Status.VolumeStatus, volume.Name ≠ volumeName) ∧
    ((∃ volume ∈ vmi.Status.VolumeStatus, volume.Name = volumeName) →
      EnsureVolumeRemovedCondition c ns vmName volumeName now = (false, none)) := by
  have hc : EnsureVolumeRemovedCondition c ns vmName volumeName now
      = removedScan volumeName vmi.Status.VolumeStatus := by
    simp [EnsureVolumeRemovedCondition, hfetch]
  rw [hc]
  refine ⟨removedScan_true_iff volumeName _, fun hex => ?_⟩
  rcases removedScan_cases volumeName vmi.Status.VolumeStatus with h | h
  · obtain ⟨volume, hmem, hname⟩ := hex
    exact absurd hname ((removedScan_true_iff volumeName _).mp h volume hmem)
  · exact h

/-- Witness of C8: without an entry for `v1` the sample converges; with an entry for `v1`,
here in a phase other than ready, it does not. -/
theorem EnsureVolumeRemoved_sample_witness :
    EnsureVolumeRemovedCondition
        (testClient ⟨⟨[⟨"v2", "Ready"⟩]⟩⟩) "ns" "vm" "v1" 0 = (true, none) ∧
    EnsureVolumeRemovedCondition
        (testClient ⟨⟨[⟨"v2", "Ready"⟩, ⟨"v1", "Detaching"⟩]⟩⟩) "ns" "vm" "v1" 0
      = (false, none) :=
  ⟨(EnsureVolumeRemoved_sample (testClient ⟨⟨[⟨"v2", "Ready"⟩]⟩⟩)
      "ns" "vm" "v1" 0 ⟨⟨[⟨"v2", "Ready"⟩]⟩⟩ rfl).1.mpr (by decide),
   (EnsureVolumeRemoved_sample (testClient ⟨⟨[⟨"v2", "Ready"⟩, ⟨"v1", "Detaching"⟩]⟩⟩)
      "ns" "vm" "v1" 0 ⟨⟨[⟨"v2", "Ready"⟩, ⟨"v1", "Detaching"⟩]⟩⟩ rfl).2
      ⟨⟨"v1", "Detaching"⟩, by decide, rfl⟩⟩

/-- C9, as stated, fails: with a three-second timeout and a volume that stays pending, the
first sample of `EnsureVolumeAvailable` and of `EnsureVolumeRemoved` is taken at elapsed time
zero, which is less than one polling interval. -/
theorem first_sample_before_one_interval :
    (EnsureVolumeAvailable (testClient ⟨⟨[⟨"v1", "Pending"⟩]⟩⟩) "ns" "vm" "v1"
        3000000000 10).samples.head? = some 0 ∧
    (EnsureVolumeRemoved (testClient ⟨⟨[⟨"v1", "Pending"⟩]⟩⟩) "ns" "vm" "v1"
        3000000000 10).samples.head? = some 0 ∧
    ¬ (Second ≤ 0) := by
  decide

/-- C9, amended: for every client, every target and every timeout, the first sample of
`EnsureVolumeAvailable` and of `EnsureVolumeRemoved` is taken at the start of the call, at
elapsed time zero, before any polling interval has elapsed. -/
theorem first_sample_immediate {κ σ : Type} (c : client κ σ) (ns vmName volumeName : String)
    (timeout : Int) (fuel : Nat) :
    (EnsureVolumeAvailable c ns vmName volumeName timeout fuel).samples.head? = some 0 ∧
    (EnsureVolumeRemoved c ns vmName volumeName timeout fuel).samples.head? = some 0 :=
  ⟨PollImmediate_first_sample _ _ _ _, PollImmediate_first_sample _ _ _ _⟩

/-! ## Construction -/

/-- C10: a client that `NewClient` builds from the prefix `p` and the label map `M` enforces
the volume prefix `p` followed by a hyphen and requires the labels `M`; on it
`CreateDataVolume` refuses, with `ErrInvalidVolume` and without any downstream call, every
name that does not start with `p` followed by a hyphen, among them every name that starts
with `p` and continues with something other than a hyphen. -/
theorem NewClient_policy {ρ κ σ : Type} (lib : Constructors ρ κ σ) (config : ρ)
    (M : LabelMap) (p : String) (c : client κ σ) (hnew : NewClient lib config M p = .ok c) :
    c.volumePrefix = p ++ "-" ∧ c.infraLabelMap = M ∧
    (∀ (ns : String) (dataVolume : DataVolume) (s : σ),
      (¬ ∃ rest : String, dataVolume.Name = (p ++ "-") ++ rest) →
      CreateDataVolume c ns dataVolume s = ⟨(none, some Error.ErrInvalidVolume), [], s⟩) ∧
    (∀ (ns : String) (dataVolume : DataVolume) (s : σ) (rest : String),
      dataVolume.Name = p ++ rest → (¬ ∃ r : String, rest = "-" ++ r) →
      CreateDataVolume c ns dataVolume s = ⟨(none, some Error.ErrInvalidVolume), [], s⟩) := by
  have hc : c.volumePrefix = p ++ "-" ∧ c.infraLabelMap = M := by
    unfold NewClient at hnew
    split at hnew
    · cases hnew
    · split at hnew
      · cases hnew
      · split at hnew
        · cases hnew
        · cases hnew
          exact ⟨rfl, rfl⟩
  have hreject : ∀ (ns : String) (dataVolume : DataVolume) (s : σ),
      (¬ ∃ rest : String, dataVolume.Name = (p ++ "-") ++ rest) →
      CreateDataVolume c ns dataVolume s = ⟨(none, some Error.ErrInvalidVolume), [], s⟩ := by
    intro ns dataVolume s hno
    have hp : HasPrefix dataVolume.Name c.volumePrefix = false := by
      rw [← Bool.not_eq_true, HasPrefix_iff, hc.1]
      exact hno
    simp [CreateDataVolume, hp]
  refine ⟨hc.1, hc.2, hreject, ?_⟩
  intro ns dataVolume s rest hname hrest
  apply hreject
  rintro ⟨r, hr⟩
  rw [hname] at hr
  exact hrest ⟨r, append_hyphen_cancel hr⟩

/-- Witness of C10: built from the prefix `pvc` and the labels `test=test`, the client
enforces `pvc-`; it refuses the name `pvcx-data`, which starts with `pvc` without a hyphen
after it. -/
theorem NewClient_policy_witness :
    NewClient (memoryConstructors ⟨⟨[]⟩⟩) () [("test", "test")] "pvc"
      = .ok (testClient ⟨⟨[]⟩⟩) ∧
    (testClient ⟨⟨[]⟩⟩).volumePrefix = "pvc" ++ "-" ∧
    CreateDataVolume (testClient ⟨⟨[]⟩⟩) "test-namespace"
        (createDataVolume "pvcx-data" [("test", "test")]) testStore
      = ⟨(none, some Error.ErrInvalidVolume), [], testStore⟩ :=
  ⟨rfl,
   (NewClient_policy (memoryConstructors ⟨⟨[]⟩⟩) () [("test", "test")] "pvc"
      (testClient ⟨⟨[]⟩⟩) rfl).1,
   (NewClient_policy (memoryConstructors ⟨⟨[]⟩⟩) () [("test", "test")] "pvc"
      (testClient ⟨⟨[]⟩⟩) rfl).2.2.2 "test-namespace"
      (createDataVolume "pvcx-data" [("test", "test")]) testStore "x-data" (by decide)
      (by rintro ⟨r, hr⟩
          have h := congrArg String.data hr
          simp at h)⟩

end kubevirt
